import Mathlib

/-!
Verification of the folder2LLM extraction-dispatch and sanitization pipeline.

The development shallowly embeds the three near-identical scripts of the
repository (files_2_text.py, files_2_zip.py, raw_text_2_utf8.py).  Python
strings are modelled as lists of unicode scalar values (`List Char`); the
external libraries (unicodedata, docx, fitz, PyPDF2, openpyxl, odf, json)
are modelled by parameters or by per-file oracles recording the outcome
each library reports for a given file, since their internals are outside
the repository.
-/

namespace Folder2LLM

/-- A Python string, as a sequence of unicode scalar values. -/
abbrev Txt := List Char

/-- Convenience injection of a Lean string literal into the model. -/
def lit (s : String) : Txt := s.data

/-! ## Sanitizer (files_2_zip.py lines 59-73, raw_text_2_utf8.py lines 62-92)

The two copies of `sanitize_text` are statement-for-statement identical:
NFC-normalize, replace every character that is neither printable nor in
`['\n', '\r', '\t']` by a single space, and strip leading/trailing
whitespace.  The unicodedata facts (`str.isprintable`, `str.isspace`,
`unicodedata.normalize("NFC", _)`) are library behaviour, so they enter as
parameters `printable`, `space`, `nfc`. -/

/-- One iteration of the cleaning loop: keep the character when
`ch.isprintable() or ch in ['\n', '\r', '\t']`, else append a space. -/
def cleanChar (printable : Char → Bool) (c : Char) : Char :=
  if printable c || c = '\n' || c = '\r' || c = '\t' then c else ' '

/-- Python `str.strip()` with no arguments: drop leading and trailing
characters for which `space` (modelling `str.isspace`) holds. -/
def pyStrip (space : Char → Bool) (s : Txt) : Txt :=
  ((s.dropWhile space).reverse.dropWhile space).reverse

/-- Model of `sanitize_text(text)`: normalize to NFC, clean each character, strip. -/
def sanitize_text (printable space : Char → Bool) (nfc : Txt → Txt)
    (text : Txt) : Txt :=
  pyStrip space ((nfc text).map (cleanChar printable))

/-- Unicode fact: NFC normalization is idempotent. -/
def NfcIdem (nfc : Txt → Txt) : Prop := ∀ s, nfc (nfc s) = nfc s

/-- Unicode fact: the empty string is already normalized. -/
def NfcNil (nfc : Txt → Txt) : Prop := nfc [] = []

/-- Unicode fact: replacing characters of an NFC string by spaces keeps it
in NFC form (U+0020 never participates in a canonical composition). -/
def NfcFixedOnClean (printable : Char → Bool) (nfc : Txt → Txt) : Prop :=
  ∀ s, nfc s = s → nfc (s.map (cleanChar printable)) = s.map (cleanChar printable)

/-- Unicode fact: a substring of an NFC string is NFC, in particular the
result of stripping boundary whitespace. -/
def NfcFixedOnStrip (space : Char → Bool) (nfc : Txt → Txt) : Prop :=
  ∀ s, nfc s = s → nfc (pyStrip space s) = pyStrip space s

/-! ## Concrete character classes

Used only to instantiate witnesses and counterexamples; they agree with
Python `str.isprintable` and `str.isspace` on the ASCII range. -/

/-- ASCII printability: exactly the code points 0x20 to 0x7e. -/
def asciiPrintable (c : Char) : Bool := 0x20 ≤ c.toNat && c.toNat ≤ 0x7e

/-- ASCII whitespace, as Python `str.isspace` classifies it. -/
def asciiSpace (c : Char) : Bool :=
  c = ' ' || c = '\t' || c = '\n' || c = '\r' || c = '\x0b' || c = '\x0c'

/-! ## Python string and path helpers -/

/-- Python `sep.join(xs)` for a list of strings. -/
def pyJoinList (sep : Txt) : List Txt → Txt
  | [] => []
  | [x] => x
  | x :: y :: xs => x ++ sep ++ pyJoinList sep (y :: xs)

/-- Python `str.lower`, character-wise (the scripts only compare the result
against ASCII extension literals, where `Char.toLower` agrees with it). -/
def pyLower (s : Txt) : Txt := s.map Char.toLower

/-- Helper for `str.rfind`: track the index of the last occurrence seen. -/
def rfindAux (c : Char) : Txt → Nat → Int → Int
  | [], _, best => best
  | x :: xs, i, best => rfindAux c xs (i + 1) (if x = c then (i : Int) else best)

/-- Python `p.rfind(c)`: index of the last occurrence of `c`, or -1. -/
def pyRfind (c : Char) (p : Txt) : Int := rfindAux c p 0 (-1)

/-- CPython `posixpath.splitext` (via `genericpath._splitext` with
`sep = '/'`, `extsep = '.'`): split off the extension beginning at the last
dot of the final path component, unless that component consists only of
leading dots up to there. -/
def splitext (p : Txt) : Txt × Txt :=
  let sepIndex := pyRfind '/' p
  let dotIndex := pyRfind '.' p
  if dotIndex > sepIndex then
    if ((p.drop (sepIndex + 1).toNat).take (dotIndex - sepIndex - 1).toNat).any
        (fun c => c != '.') then
      (p.take dotIndex.toNat, p.drop dotIndex.toNat)
    else (p, [])
  else (p, [])

/-- Model of `ext = os.path.splitext(filepath)[1].lower()`, the dispatch key used by
every `extract_text_from_file` variant. -/
def extOf (p : Txt) : Txt := pyLower (splitext p).2

/-- CPython `posixpath.join` for one extra component. -/
def pyJoin (a b : Txt) : Txt :=
  if b.head? = some '/' then b
  else if a = [] ∨ a.getLast? = some '/' then a ++ b
  else a ++ '/' :: b

/-- Model of `os.path.relpath(full, start)`, specialised to the only use the
orchestrators make of it: `full` is produced by `os.walk`/`os.path.join`
under `start`, so the call reduces to removing the `start` prefix together
with the separating slashes. -/
def pyRelpath (full start : Txt) : Txt :=
  List.dropWhile (fun c => c = '/') (full.drop start.length)

/-- The per-file output-path computation of `convert_files_to_txt`
(files_2_text.py lines 274-277, files_2_zip.py lines 255-258,
raw_text_2_utf8.py lines 299-302): relative path, drop the extension,
append `.txt`, re-root under the output directory. -/
def conversionTaskPath (input_dir output_dir full_path : Txt) : Txt :=
  let rel_path := pyRelpath full_path input_dir
  let base_name := (splitext rel_path).1
  pyJoin output_dir (base_name ++ lit ".txt")

/-! ## Diagnostics -/

/-- Log severities used by the scripts. -/
inductive Level where
  | info
  | warning
  | error
  | debug
deriving DecidableEq, Repr

/-- One emitted log line; the message is the format string from the source
(the interpolated file path and exception text are omitted). -/
structure LogEntry where
  level : Level
  msg : String
deriving DecidableEq, Repr

def plainErrE : LogEntry := ⟨.error, "Error reading plaintext file %s: %s"⟩
def docxErrE : LogEntry := ⟨.error, "Error reading DOCX %s: %s"⟩
def pdf1ErrE : LogEntry := ⟨.error, "Error reading PDF (PyMuPDF) %s: %s"⟩
def pdf2ErrE : LogEntry := ⟨.error, "Error reading PDF (PyPDF2) %s: %s"⟩
def odtErrE : LogEntry := ⟨.error, "Error reading ODT %s: %s"⟩
def excelErrE : LogEntry := ⟨.error, "Error reading Excel file %s: %s"⟩
def ipynbErrE : LogEntry := ⟨.error, "Error reading IPYNB %s: %s"⟩
def docRtfWarnE : LogEntry :=
  ⟨.warning, "Native reading not implemented for %s; consider external tools."⟩
def noPdfWarnE : LogEntry :=
  ⟨.warning, "No PDF library installed; cannot parse PDFs."⟩
def pptWarnTE : LogEntry :=
  ⟨.warning, "Parsing for PPT/ODP not implemented in this script."⟩
def pptWarnZE : LogEntry :=
  ⟨.warning, "Parsing for PPT/ODP not implemented."⟩

/-! ## JSON values, for the notebook reader -/

/-- A parsed JSON document, as `json.load` returns it. -/
inductive Json where
  | null
  | bool (b : Bool)
  | num (n : Int)
  | str (s : Txt)
  | arr (xs : List Json)
  | obj (kvs : List (Txt × Json))

/-- Lookup in a parsed JSON object (Python dicts from `json.load` have
unique keys). -/
def lookupKey (k : Txt) : List (Txt × Json) → Option Json
  | [] => none
  | (k', v) :: rest => if k' = k then some v else lookupKey k rest

/-- Python `data.get(key, default)`: only dicts have `.get`; any other
value raises `AttributeError`. -/
def jsonGet (v : Json) (key : Txt) (dflt : Json) : Except Unit Json :=
  match v with
  | .obj kvs => .ok ((lookupKey key kvs).getD dflt)
  | _ => .error ()

/-- Python iteration over a JSON value: lists yield elements, strings yield
one-character strings, dicts yield their keys; other values raise
`TypeError`. -/
def pyIter : Json → Except Unit (List Json)
  | .arr xs => .ok xs
  | .str s => .ok (s.map (fun c => .str [c]))
  | .obj kvs => .ok (kvs.map (fun kv => .str kv.1))
  | _ => .error ()

/-- The items fed to `str.join` must all be strings, else `TypeError`. -/
def strList : List Json → Except Unit (List Txt)
  | [] => .ok []
  | .str s :: rest =>
      match strList rest with
      | .ok ss => .ok (s :: ss)
      | .error e => .error e
  | _ :: _ => .error ()

/-- Python `sep.join(iterable)` applied to a JSON value. -/
def pyStrJoin (sep : Txt) (src : Json) : Except Unit Txt :=
  match pyIter src with
  | .error e => .error e
  | .ok items =>
      match strList items with
      | .error e => .error e
      | .ok ss => .ok (pyJoinList sep ss)

/-- The cell loop of `_read_ipynb`: for each cell take
`cell.get("source", [])` and `"".join(src)`, stopping at the first
raised exception. -/
def cellTexts : List Json → Except Unit (List Txt)
  | [] => .ok []
  | cell :: rest =>
      match jsonGet cell (lit "source") (.arr []) with
      | .error e => .error e
      | .ok src =>
          match pyStrJoin [] src with
          | .error e => .error e
          | .ok t =>
              match cellTexts rest with
              | .error e => .error e
              | .ok ts => .ok (t :: ts)

/-- The body of `_read_ipynb` after a successful `json.load`: iterate
`data.get("cells", [])` and join the cell texts with newlines. -/
def ipynbFromJson (data : Json) : Except Unit Txt :=
  match jsonGet data (lit "cells") (.arr []) with
  | .error e => .error e
  | .ok cells =>
      match pyIter cells with
      | .error e => .error e
      | .ok cellList =>
          match cellTexts cellList with
          | .error e => .error e
          | .ok ts => .ok (pyJoinList (lit "\n") ts)

/-! ## Readers

Each `_read_*` helper is identical in all three scripts (same algorithm,
same log messages), so one model serves every variant.  The outcome the
external parser reports for a file enters as an `Except` argument. -/

/-- Model of `_read_plaintext`: UTF-8 file read; any failure yields "" plus an
error log. -/
def read_plaintext (res : Except Unit Txt) : Txt × List LogEntry :=
  match res with
  | .ok s => (s, [])
  | .error _ => ([], [plainErrE])

/-- Model of `_read_docx`: paragraph texts joined by newlines; any parser exception
yields "" plus an error log. -/
def read_docx (res : Except Unit (List Txt)) : Txt × List LogEntry :=
  match res with
  | .ok ps => (pyJoinList (lit "\n") ps, [])
  | .error _ => ([], [docxErrE])

/-- Model of `_read_odt`: texts of the paragraph nodes joined by newlines; any
parser exception yields "" plus an error log. -/
def read_odt (res : Except Unit (List Txt)) : Txt × List LogEntry :=
  match res with
  | .ok ps => (pyJoinList (lit "\n") ps, [])
  | .error _ => ([], [odtErrE])

/-- One row of a workbook: `"\t".join(str(x) if x is not None else "")`.
A cell is `none` (Python `None`, rendered "") or its `str` rendering. -/
def rowStr (row : List (Option Txt)) : Txt :=
  pyJoinList (lit "\t") (row.map (fun x => x.getD []))

/-- The accumulation loop of `_read_excel`: worksheets in workbook order,
rows in sheet order, appending each rendered row to `text_chunks`. -/
def excelChunks (sheets : List (List (List (Option Txt)))) : List Txt :=
  sheets.foldl (fun acc sheet =>
    sheet.foldl (fun acc2 row => acc2 ++ [rowStr row]) acc) []

/-- Model of `_read_excel`: the workbook either loads, giving sheets of rows of
cells, or raises, yielding "" plus an error log. -/
def read_excel (res : Except Unit (List (List (List (Option Txt))))) :
    Txt × List LogEntry :=
  match res with
  | .ok sheets => (pyJoinList (lit "\n") (excelChunks sheets), [])
  | .error _ => ([], [excelErrE])

/-- The page loop of `_read_pdf_pymupdf`: pages extracted until the first
exception; pages read so far are kept because the `join` sits outside the
`try` block. -/
def pagesLoop1 : List (Except Unit Txt) → List Txt × List LogEntry
  | [] => ([], [])
  | .ok t :: rest =>
      let r := pagesLoop1 rest
      (t :: r.1, r.2)
  | .error _ :: _ => ([], [pdf1ErrE])

/-- Model of `_read_pdf_pymupdf`: `fitz.open` may raise (no pages kept), otherwise
each page may yield text or raise; the pages collected before a failure
are still newline-joined and returned. -/
def read_pdf_pymupdf (res : Except Unit (List (Except Unit Txt))) :
    Txt × List LogEntry :=
  match res with
  | .error _ => ([], [pdf1ErrE])
  | .ok pages =>
      let r := pagesLoop1 pages
      (pyJoinList (lit "\n") r.1, r.2)

/-- The page loop of `_read_pdf_pypdf2`: `extract_text()` may return
`None` (the source appends `or ""`) or raise. -/
def pagesLoop2 : List (Except Unit (Option Txt)) → List Txt × List LogEntry
  | [] => ([], [])
  | .ok o :: rest =>
      let r := pagesLoop2 rest
      (o.getD [] :: r.1, r.2)
  | .error _ :: _ => ([], [pdf2ErrE])

/-- Model of `_read_pdf_pypdf2`: like the PyMuPDF reader, the `join` sits outside
the `try`, so pages collected before a failure are returned. -/
def read_pdf_pypdf2 (res : Except Unit (List (Except Unit (Option Txt)))) :
    Txt × List LogEntry :=
  match res with
  | .error _ => ([], [pdf2ErrE])
  | .ok pages =>
      let r := pagesLoop2 pages
      (pyJoinList (lit "\n") r.1, r.2)

/-- Model of `_read_ipynb`: `json.load` (with the file open) may fail; afterwards
any dynamic error inside the cell loop is caught by the same `except`. -/
def read_ipynb (res : Except Unit Json) : Txt × List LogEntry :=
  match res with
  | .error _ => ([], [ipynbErrE])
  | .ok data =>
      match ipynbFromJson data with
      | .ok t => (t, [])
      | .error _ => ([], [ipynbErrE])

/-! ## Dispatcher -/

/-- The runtime environment of one run: which optional modules imported
(fixed for the run), and the outcome each external parser reports per
file path. -/
structure Env where
  docx : Bool
  fitz : Bool
  pypdf2 : Bool
  openpyxl : Bool
  odf : Bool
  readPlain : Txt → Except Unit Txt
  readDocx : Txt → Except Unit (List Txt)
  readFitz : Txt → Except Unit (List (Except Unit Txt))
  readPyPdf2 : Txt → Except Unit (List (Except Unit (Option Txt)))
  readOdt : Txt → Except Unit (List Txt)
  readWorkbook : Txt → Except Unit (List (List (List (Option Txt))))
  readJson : Txt → Except Unit Json

/-- The plaintext/code extension tuple shared by all three scripts. -/
def plaintextExts : List Txt :=
  [lit ".txt", lit ".md", lit ".py", lit ".json", lit ".csv", lit ".tsv",
   lit ".log", lit ".xml", lit ".yaml", lit ".yml", lit ".html", lit ".htm",
   lit ".css", lit ".js", lit ".jsx", lit ".ts", lit ".tsx", lit ".sh",
   lit ".cmd", lit ".ps1", lit ".swift", lit ".kt", lit ".go", lit ".rs",
   lit ".lua", lit ".pl", lit ".r", lit ".m", lit ".vb", lit ".cs",
   lit ".asm", lit ".dart", lit ".php", lit ".rb", lit ".sql"]

/-- The spreadsheet extension tuple. -/
def spreadsheetExts : List Txt := [lit ".xlsx", lit ".xls", lit ".xlsm", lit ".ods"]

/-- The presentation extension tuple. -/
def pptExts : List Txt := [lit ".ppt", lit ".pptx", lit ".odp"]

/-- Model of `extract_text_from_file` of files_2_text.py (lines 74-128). -/
def extract_text_from_file_t (env : Env) (filepath : Txt) : Txt × List LogEntry :=
  let ext := extOf filepath
  if ext ∈ plaintextExts then read_plaintext (env.readPlain filepath)
  else if ext = lit ".docx" then
    (if env.docx then read_docx (env.readDocx filepath) else ([], []))
  else if ext = lit ".doc" ∨ ext = lit ".rtf" then ([], [docRtfWarnE])
  else if ext = lit ".pdf" then
    (if env.fitz then read_pdf_pymupdf (env.readFitz filepath)
     else if env.pypdf2 then read_pdf_pypdf2 (env.readPyPdf2 filepath)
     else ([], [noPdfWarnE]))
  else if ext = lit ".odt" then
    (if env.odf then read_odt (env.readOdt filepath) else ([], []))
  else if ext ∈ spreadsheetExts then
    (if env.openpyxl then read_excel (env.readWorkbook filepath) else ([], []))
  else if ext ∈ pptExts then ([], [pptWarnTE])
  else if ext = lit ".ipynb" then read_ipynb (env.readJson filepath)
  else ([], [])

/-- Model of `extract_text_from_file` of files_2_zip.py (lines 76-121); it differs
from the files_2_text.py copy only in the PPT/ODP warning message. -/
def extract_text_from_file_z (env : Env) (filepath : Txt) : Txt × List LogEntry :=
  let ext := extOf filepath
  if ext ∈ plaintextExts then read_plaintext (env.readPlain filepath)
  else if ext = lit ".docx" then
    (if env.docx then read_docx (env.readDocx filepath) else ([], []))
  else if ext = lit ".doc" ∨ ext = lit ".rtf" then ([], [docRtfWarnE])
  else if ext = lit ".pdf" then
    (if env.fitz then read_pdf_pymupdf (env.readFitz filepath)
     else if env.pypdf2 then read_pdf_pypdf2 (env.readPyPdf2 filepath)
     else ([], [noPdfWarnE]))
  else if ext = lit ".odt" then
    (if env.odf then read_odt (env.readOdt filepath) else ([], []))
  else if ext ∈ spreadsheetExts then
    (if env.openpyxl then read_excel (env.readWorkbook filepath) else ([], []))
  else if ext ∈ pptExts then ([], [pptWarnZE])
  else if ext = lit ".ipynb" then read_ipynb (env.readJson filepath)
  else ([], [])

/-- Model of `extract_text_from_file` of raw_text_2_utf8.py (lines 98-152); it is
line-for-line the files_2_text.py copy. -/
def extract_text_from_file_u (env : Env) (filepath : Txt) : Txt × List LogEntry :=
  let ext := extOf filepath
  if ext ∈ plaintextExts then read_plaintext (env.readPlain filepath)
  else if ext = lit ".docx" then
    (if env.docx then read_docx (env.readDocx filepath) else ([], []))
  else if ext = lit ".doc" ∨ ext = lit ".rtf" then ([], [docRtfWarnE])
  else if ext = lit ".pdf" then
    (if env.fitz then read_pdf_pymupdf (env.readFitz filepath)
     else if env.pypdf2 then read_pdf_pypdf2 (env.readPyPdf2 filepath)
     else ([], [noPdfWarnE]))
  else if ext = lit ".odt" then
    (if env.odf then read_odt (env.readOdt filepath) else ([], []))
  else if ext ∈ spreadsheetExts then
    (if env.openpyxl then read_excel (env.readWorkbook filepath) else ([], []))
  else if ext ∈ pptExts then ([], [pptWarnTE])
  else if ext = lit ".ipynb" then read_ipynb (env.readJson filepath)
  else ([], [])

/-! ## Orchestrator write decisions -/

/-- files_2_text.py lines 283-291: write the raw extracted text unless
`text.strip()` is falsy. -/
def writeContent_t (space : Char → Bool) (raw : Txt) : Option Txt :=
  if pyStrip space raw = [] then none else some raw

/-- files_2_zip.py lines 262-271: sanitize, then write unless the
sanitized text is falsy. -/
def writeContent_z (printable space : Char → Bool) (nfc : Txt → Txt)
    (raw : Txt) : Option Txt :=
  let sanitized := sanitize_text printable space nfc raw
  if sanitized = [] then none else some sanitized

/-- raw_text_2_utf8.py lines 308-317: identical to the files_2_zip.py
decision. -/
def writeContent_u (printable space : Char → Bool) (nfc : Txt → Txt)
    (raw : Txt) : Option Txt :=
  let sanitized := sanitize_text printable space nfc raw
  if sanitized = [] then none else some sanitized

/-- Empty or whitespace-only: every character satisfies `space`. -/
abbrev EmptyOrWs (space : Char → Bool) (s : Txt) : Prop :=
  ∀ c ∈ s, space c = true

/-! ## Concrete environments for witnesses and counterexamples -/

/-- A run in which every optional module failed to import. -/
def envNone : Env where
  docx := false
  fitz := false
  pypdf2 := false
  openpyxl := false
  odf := false
  readPlain := fun _ => .error ()
  readDocx := fun _ => .error ()
  readFitz := fun _ => .error ()
  readPyPdf2 := fun _ => .error ()
  readOdt := fun _ => .error ()
  readWorkbook := fun _ => .error ()
  readJson := fun _ => .error ()

/-- A run with PyMuPDF installed, in which the PDF parser yields one page
reading "hello" and then raises on the next page. -/
def envPdf : Env where
  docx := false
  fitz := true
  pypdf2 := false
  openpyxl := false
  odf := false
  readPlain := fun _ => .error ()
  readDocx := fun _ => .error ()
  readFitz := fun _ => .ok [.ok (lit "hello"), .error ()]
  readPyPdf2 := fun _ => .error ()
  readOdt := fun _ => .error ()
  readWorkbook := fun _ => .error ()
  readJson := fun _ => .error ()

/-! ### List lemmas for the strip operation -/

theorem head?_dropWhile_false {α : Type} {p : α → Bool} :
    ∀ {l : List α} {a : α}, (l.dropWhile p).head? = some a → p a = false := by
  intro l
  induction l with
  | nil => intro a h; simp [List.dropWhile] at h
  | cons c cs ih =>
      intro a h
      by_cases hc : p c
      · rw [List.dropWhile_cons_of_pos hc] at h
        exact ih h
      · rw [List.dropWhile_cons_of_neg hc] at h
        simp at h
        subst h
        simpa using hc

theorem dropWhile_of_head?_false {α : Type} {p : α → Bool} {l : List α}
    (h : ∀ a, l.head? = some a → p a = false) : l.dropWhile p = l := by
  cases l with
  | nil => rfl
  | cons c cs => exact List.dropWhile_cons_of_neg (by simp [h c rfl])

theorem dropWhile_dropWhile {α : Type} {p : α → Bool} (l : List α) :
    (l.dropWhile p).dropWhile p = l.dropWhile p :=
  dropWhile_of_head?_false (fun _ h => head?_dropWhile_false h)

theorem getLast?_of_getLast?_dropWhile {α : Type} {p : α → Bool} :
    ∀ {l : List α} {a : α}, (l.dropWhile p).getLast? = some a →
      l.getLast? = some a := by
  intro l
  induction l with
  | nil => intro a h; simp [List.dropWhile] at h
  | cons c cs ih =>
      intro a h
      by_cases hc : p c
      · rw [List.dropWhile_cons_of_pos hc] at h
        have hcs := ih h
        cases cs with
        | nil => simp at hcs
        | cons d ds => simpa [List.getLast?_cons_cons] using hcs
      · rwa [List.dropWhile_cons_of_neg hc] at h

theorem mem_dropWhile {α : Type} {p : α → Bool} :
    ∀ {l : List α} {a : α}, a ∈ l.dropWhile p → a ∈ l := by
  intro l
  induction l with
  | nil => intro a h; simp [List.dropWhile] at h
  | cons c cs ih =>
      intro a h
      by_cases hc : p c
      · rw [List.dropWhile_cons_of_pos hc] at h
        exact List.mem_cons_of_mem _ (ih h)
      · rwa [List.dropWhile_cons_of_neg hc] at h

theorem dropWhile_eq_nil_of_all {α : Type} {p : α → Bool} :
    ∀ {l : List α}, (∀ a ∈ l, p a = true) → l.dropWhile p = [] := by
  intro l
  induction l with
  | nil => intro _; rfl
  | cons c cs ih =>
      intro h
      rw [List.dropWhile_cons_of_pos (h c (List.mem_cons_self c cs))]
      exact ih (fun a ha => h a (List.mem_cons_of_mem _ ha))

theorem pyStrip_head?_false {space : Char → Bool} {s : Txt} {c : Char}
    (h : (pyStrip space s).head? = some c) : space c = false := by
  unfold pyStrip at h
  rw [List.head?_reverse] at h
  have h1 := getLast?_of_getLast?_dropWhile h
  rw [List.getLast?_reverse] at h1
  exact head?_dropWhile_false h1

theorem pyStrip_getLast?_false {space : Char → Bool} {s : Txt} {c : Char}
    (h : (pyStrip space s).getLast? = some c) : space c = false := by
  unfold pyStrip at h
  rw [List.getLast?_reverse] at h
  exact head?_dropWhile_false h

theorem mem_pyStrip {space : Char → Bool} {s : Txt} {c : Char}
    (h : c ∈ pyStrip space s) : c ∈ s := by
  unfold pyStrip at h
  rw [List.mem_reverse] at h
  have h1 := mem_dropWhile h
  rw [List.mem_reverse] at h1
  exact mem_dropWhile h1

theorem pyStrip_idem (space : Char → Bool) (s : Txt) :
    pyStrip space (pyStrip space s) = pyStrip space s := by
  have h1 : (pyStrip space s).dropWhile space = pyStrip space s :=
    dropWhile_of_head?_false (fun _ h => pyStrip_head?_false h)
  show (((pyStrip space s).dropWhile space).reverse.dropWhile space).reverse
      = pyStrip space s
  rw [h1]
  unfold pyStrip
  rw [List.reverse_reverse, dropWhile_dropWhile]

theorem pyStrip_eq_nil_of_all {space : Char → Bool} {s : Txt}
    (h : ∀ c ∈ s, space c = true) : pyStrip space s = [] := by
  unfold pyStrip
  rw [dropWhile_eq_nil_of_all h]
  simp [List.dropWhile]

/-! ### The cleaning step -/

theorem cleanChar_cases (printable : Char → Bool) (c : Char) :
    (cleanChar printable c = c ∧
      (printable c = true ∨ c = '\n' ∨ c = '\r' ∨ c = '\t'))
    ∨ cleanChar printable c = ' ' := by
  unfold cleanChar
  split
  next h =>
    left
    refine ⟨rfl, ?_⟩
    simpa [Bool.or_eq_true, decide_eq_true_eq, or_assoc] using h
  next h => right; rfl

theorem cleanChar_of_not_kept {printable : Char → Bool} {c : Char}
    (h : ¬(printable c = true ∨ c = '\n' ∨ c = '\r' ∨ c = '\t')) :
    cleanChar printable c = ' ' := by
  unfold cleanChar
  rw [if_neg]
  simpa [Bool.or_eq_true, decide_eq_true_eq, or_assoc, and_assoc] using h

theorem cleanChar_idem (printable : Char → Bool) (hSp : printable ' ' = true)
    (c : Char) :
    cleanChar printable (cleanChar printable c) = cleanChar printable c := by
  rcases cleanChar_cases printable c with ⟨heq, _⟩ | heq
  · simp [heq]
  · rw [heq]
    simp [cleanChar, hSp]

theorem map_id_of_mem {α : Type} {f : α → α} :
    ∀ {l : List α}, (∀ c ∈ l, f c = c) → l.map f = l := by
  intro l
  induction l with
  | nil => intro _; rfl
  | cons c cs ih =>
      intro h
      simp only [List.map_cons]
      rw [h c (List.mem_cons_self c cs),
        ih (fun a ha => h a (List.mem_cons_of_mem _ ha))]

/-! ## Claim C1 -/

/-- Claim C1: for every input string, `sanitize_text` returns text that is
in NFC form, contains no non-printable characters other than newline,
carriage return and tab (every other non-printable character having been
replaced by a single space during cleaning), and has no leading or
trailing whitespace; it maps the empty string to the empty string.  The
unicodedata facts used (idempotence of NFC, NFC of the empty string, and
closure of NFC under the space-replacement and the boundary strip) enter
as hypotheses about the library parameters. -/
theorem c1_sanitize_spec (printable space : Char → Bool) (nfc : Txt → Txt)
    (hSp : printable ' ' = true) (hNil : NfcNil nfc) (hIdem : NfcIdem nfc)
    (hClean : NfcFixedOnClean printable nfc)
    (hStrip : NfcFixedOnStrip space nfc) (x : Txt) :
    nfc (sanitize_text printable space nfc x)
      = sanitize_text printable space nfc x
    ∧ (∀ c ∈ sanitize_text printable space nfc x,
        printable c = true ∨ c = '\n' ∨ c = '\r' ∨ c = '\t')
    ∧ (∀ c, ¬(printable c = true ∨ c = '\n' ∨ c = '\r' ∨ c = '\t') →
        cleanChar printable c = ' ')
    ∧ (∀ c, (sanitize_text printable space nfc x).head? = some c →
        space c = false)
    ∧ (∀ c, (sanitize_text printable space nfc x).getLast? = some c →
        space c = false)
    ∧ sanitize_text printable space nfc [] = [] := by
  refine ⟨hStrip _ (hClean _ (hIdem x)), ?_, fun c h => cleanChar_of_not_kept h,
    fun c h => pyStrip_head?_false h, fun c h => pyStrip_getLast?_false h, ?_⟩
  · intro c hc
    have h1 : c ∈ (nfc x).map (cleanChar printable) := mem_pyStrip hc
    obtain ⟨c', _, rfl⟩ := List.mem_map.mp h1
    rcases cleanChar_cases printable c' with ⟨heq, hk⟩ | heq
    · rw [heq]
      exact hk
    · rw [heq]
      exact Or.inl hSp
  · have hNil' : nfc [] = [] := hNil
    simp [sanitize_text, hNil', pyStrip, List.dropWhile]

/-- Witness for C1: the real-unicodedata hypotheses hold of the toy model
(identity normalization, ASCII character classes), and the theorem applies
to the concrete input " a\x00b ". -/
theorem c1_witness :
    asciiPrintable ' ' = true ∧ NfcNil (id : Txt → Txt) ∧
    NfcIdem (id : Txt → Txt) ∧ NfcFixedOnClean asciiPrintable id ∧
    NfcFixedOnStrip asciiSpace id ∧
    (id (sanitize_text asciiPrintable asciiSpace id (lit " a\x00b "))
        = sanitize_text asciiPrintable asciiSpace id (lit " a\x00b ")
      ∧ (∀ c ∈ sanitize_text asciiPrintable asciiSpace id (lit " a\x00b "),
          asciiPrintable c = true ∨ c = '\n' ∨ c = '\r' ∨ c = '\t')
      ∧ (∀ c, ¬(asciiPrintable c = true ∨ c = '\n' ∨ c = '\r' ∨ c = '\t') →
          cleanChar asciiPrintable c = ' ')
      ∧ (∀ c, (sanitize_text asciiPrintable asciiSpace id (lit " a\x00b ")).head?
            = some c → asciiSpace c = false)
      ∧ (∀ c, (sanitize_text asciiPrintable asciiSpace id
            (lit " a\x00b ")).getLast? = some c → asciiSpace c = false)
      ∧ sanitize_text asciiPrintable asciiSpace id [] = []) :=
  ⟨by decide, rfl, fun _ => rfl, fun _ _ => rfl, fun _ _ => rfl,
    c1_sanitize_spec asciiPrintable asciiSpace id (by decide) rfl
      (fun _ => rfl) (fun _ _ => rfl) (fun _ _ => rfl) (lit " a\x00b ")⟩

/-! ## Claim C4 -/

/-- Claim C4: `sanitize_text` is idempotent, under the same unicodedata
facts as C1. -/
theorem c4_sanitize_idempotent (printable space : Char → Bool)
    (nfc : Txt → Txt) (hSp : printable ' ' = true) (hIdem : NfcIdem nfc)
    (hClean : NfcFixedOnClean printable nfc)
    (hStrip : NfcFixedOnStrip space nfc) (x : Txt) :
    sanitize_text printable space nfc (sanitize_text printable space nfc x)
      = sanitize_text printable space nfc x := by
  have hfix : nfc (sanitize_text printable space nfc x)
      = sanitize_text printable space nfc x :=
    hStrip _ (hClean _ (hIdem x))
  have hmem : ∀ c ∈ sanitize_text printable space nfc x,
      cleanChar printable c = c := by
    intro c hc
    have h1 : c ∈ (nfc x).map (cleanChar printable) := mem_pyStrip hc
    obtain ⟨c', _, rfl⟩ := List.mem_map.mp h1
    exact cleanChar_idem printable hSp c'
  show pyStrip space
      ((nfc (sanitize_text printable space nfc x)).map (cleanChar printable))
    = sanitize_text printable space nfc x
  rw [hfix, map_id_of_mem hmem]
  exact pyStrip_idem space ((nfc x).map (cleanChar printable))

/-- Witness for C4: the hypotheses hold of the toy model and the theorem
applies to the concrete input " a\x00b ". -/
theorem c4_witness :
    asciiPrintable ' ' = true ∧ NfcIdem (id : Txt → Txt) ∧
    NfcFixedOnClean asciiPrintable id ∧ NfcFixedOnStrip asciiSpace id ∧
    sanitize_text asciiPrintable asciiSpace id
        (sanitize_text asciiPrintable asciiSpace id (lit " a\x00b "))
      = sanitize_text asciiPrintable asciiSpace id (lit " a\x00b ") :=
  ⟨by decide, fun _ => rfl, fun _ _ => rfl, fun _ _ => rfl,
    c4_sanitize_idempotent asciiPrintable asciiSpace id (by decide)
      (fun _ => rfl) (fun _ _ => rfl) (fun _ _ => rfl) (lit " a\x00b ")⟩

/-! ### Dispatch reduction lemmas

Reducing the extension if-chain of `extract_text_from_file` under a
hypothesis on the (lower-cased) extension of the file path. -/

set_option maxHeartbeats 2000000 in
theorem extract_t_of_plain (env : Env) (p : Txt)
    (h : extOf p ∈ plaintextExts) :
    extract_text_from_file_t env p = read_plaintext (env.readPlain p) := by
  simp only [extract_text_from_file_t, if_pos h]

set_option maxHeartbeats 2000000 in
theorem extract_t_of_docx (env : Env) (p : Txt) (h : extOf p = lit ".docx") :
    extract_text_from_file_t env p =
      (if env.docx then read_docx (env.readDocx p) else ([], [])) := by
  unfold extract_text_from_file_t
  rw [h]
  rfl

set_option maxHeartbeats 2000000 in
theorem extract_t_of_pdf (env : Env) (p : Txt) (h : extOf p = lit ".pdf") :
    extract_text_from_file_t env p =
      (if env.fitz then read_pdf_pymupdf (env.readFitz p)
       else if env.pypdf2 then read_pdf_pypdf2 (env.readPyPdf2 p)
       else ([], [noPdfWarnE])) := by
  unfold extract_text_from_file_t
  rw [h]
  rfl

set_option maxHeartbeats 2000000 in
theorem extract_t_of_odt (env : Env) (p : Txt) (h : extOf p = lit ".odt") :
    extract_text_from_file_t env p =
      (if env.odf then read_odt (env.readOdt p) else ([], [])) := by
  unfold extract_text_from_file_t
  rw [h]
  rfl

set_option maxHeartbeats 8000000 in
theorem extract_t_of_spreadsheet (env : Env) (p : Txt)
    (h : extOf p ∈ spreadsheetExts) :
    extract_text_from_file_t env p =
      (if env.openpyxl then read_excel (env.readWorkbook p) else ([], [])) := by
  unfold extract_text_from_file_t
  simp only [spreadsheetExts, List.mem_cons, List.not_mem_nil, or_false] at h
  rcases h with h | h | h | h <;> rw [h] <;> rfl

set_option maxHeartbeats 2000000 in
theorem extract_t_of_ipynb (env : Env) (p : Txt) (h : extOf p = lit ".ipynb") :
    extract_text_from_file_t env p = read_ipynb (env.readJson p) := by
  unfold extract_text_from_file_t
  rw [h]
  rfl

set_option maxHeartbeats 2000000 in
theorem extract_z_of_docx (env : Env) (p : Txt) (h : extOf p = lit ".docx") :
    extract_text_from_file_z env p =
      (if env.docx then read_docx (env.readDocx p) else ([], [])) := by
  unfold extract_text_from_file_z
  rw [h]
  rfl

set_option maxHeartbeats 2000000 in
theorem extract_z_of_pdf (env : Env) (p : Txt) (h : extOf p = lit ".pdf") :
    extract_text_from_file_z env p =
      (if env.fitz then read_pdf_pymupdf (env.readFitz p)
       else if env.pypdf2 then read_pdf_pypdf2 (env.readPyPdf2 p)
       else ([], [noPdfWarnE])) := by
  unfold extract_text_from_file_z
  rw [h]
  rfl

set_option maxHeartbeats 2000000 in
theorem extract_z_of_odt (env : Env) (p : Txt) (h : extOf p = lit ".odt") :
    extract_text_from_file_z env p =
      (if env.odf then read_odt (env.readOdt p) else ([], [])) := by
  unfold extract_text_from_file_z
  rw [h]
  rfl

set_option maxHeartbeats 8000000 in
theorem extract_z_of_spreadsheet (env : Env) (p : Txt)
    (h : extOf p ∈ spreadsheetExts) :
    extract_text_from_file_z env p =
      (if env.openpyxl then read_excel (env.readWorkbook p) else ([], [])) := by
  unfold extract_text_from_file_z
  simp only [spreadsheetExts, List.mem_cons, List.not_mem_nil, or_false] at h
  rcases h with h | h | h | h <;> rw [h] <;> rfl

theorem extract_fst_t_eq_z (env : Env) (p : Txt) :
    (extract_text_from_file_t env p).1 = (extract_text_from_file_z env p).1 := by
  simp only [extract_text_from_file_t, extract_text_from_file_z]
  by_cases h1 : extOf p ∈ plaintextExts
  · simp only [if_pos h1]
  · simp only [if_neg h1]
    by_cases h2 : extOf p = lit ".docx"
    · simp only [if_pos h2]
    · simp only [if_neg h2]
      by_cases h3 : extOf p = lit ".doc" ∨ extOf p = lit ".rtf"
      · simp only [if_pos h3]
      · simp only [if_neg h3]
        by_cases h4 : extOf p = lit ".pdf"
        · simp only [if_pos h4]
        · simp only [if_neg h4]
          by_cases h5 : extOf p = lit ".odt"
          · simp only [if_pos h5]
          · simp only [if_neg h5]
            by_cases h6 : extOf p ∈ spreadsheetExts
            · simp only [if_pos h6]
            · simp only [if_neg h6]
              by_cases h7 : extOf p ∈ pptExts
              · simp only [if_pos h7]
              · simp only [if_neg h7]

/-! ## Claim C9 -/

/-- Claim C9: for every file path and every fixed availability of the
optional capabilities, the three `extract_text_from_file` copies return
the same text.  The raw_text_2_utf8.py copy is even literally equal to
the files_2_text.py copy (logs included); the files_2_zip.py copy
differs only in the wording of the PPT/ODP warning, so for it the
returned-text components are proved equal. -/
theorem c9_variants_extensionally_equal :
    (∀ env p, extract_text_from_file_t env p = extract_text_from_file_u env p)
    ∧ (∀ env p,
        (extract_text_from_file_t env p).1 = (extract_text_from_file_z env p).1)
    ∧ (∀ env p,
        (extract_text_from_file_z env p).1 = (extract_text_from_file_u env p).1) := by
  refine ⟨fun _ _ => rfl, fun env p => extract_fst_t_eq_z env p, fun env p => ?_⟩
  rw [← extract_fst_t_eq_z env p]
  rfl

/-! ## Claim C3 -/

/-- Claim C3: when the capability a category requires is unavailable,
extraction returns the empty string without raising; silently (no log
line) for docx, spreadsheets and odt, and with a warning for PDF when
neither engine is available.  Stated for the files_2_text.py and
files_2_zip.py dispatchers cited by the claim. -/
theorem c3_capability_missing (env : Env) (p : Txt) :
    (extOf p = lit ".docx" → env.docx = false →
      extract_text_from_file_t env p = ([], [])
      ∧ extract_text_from_file_z env p = ([], []))
    ∧ (extOf p ∈ spreadsheetExts → env.openpyxl = false →
      extract_text_from_file_t env p = ([], [])
      ∧ extract_text_from_file_z env p = ([], []))
    ∧ (extOf p = lit ".odt" → env.odf = false →
      extract_text_from_file_t env p = ([], [])
      ∧ extract_text_from_file_z env p = ([], []))
    ∧ (extOf p = lit ".pdf" → env.fitz = false → env.pypdf2 = false →
      extract_text_from_file_t env p = ([], [noPdfWarnE])
      ∧ extract_text_from_file_z env p = ([], [noPdfWarnE])) := by
  refine ⟨fun h hc => ?_, fun h hc => ?_, fun h hc => ?_, fun h h1 h2 => ?_⟩
  · rw [extract_t_of_docx env p h, extract_z_of_docx env p h, hc]
    exact ⟨rfl, rfl⟩
  · rw [extract_t_of_spreadsheet env p h, extract_z_of_spreadsheet env p h, hc]
    exact ⟨rfl, rfl⟩
  · rw [extract_t_of_odt env p h, extract_z_of_odt env p h, hc]
    exact ⟨rfl, rfl⟩
  · rw [extract_t_of_pdf env p h, extract_z_of_pdf env p h, h1, h2]
    exact ⟨rfl, rfl⟩

/-- Witness for C3: a run with no optional module, applied to the path
"a.docx". -/
theorem c3_witness :
    extract_text_from_file_t envNone (lit "a.docx") = ([], [])
    ∧ extract_text_from_file_z envNone (lit "a.docx") = ([], []) :=
  (c3_capability_missing envNone (lit "a.docx")).1 (by decide) rfl

/-! ## Claim C2 -/

theorem pagesLoop1_partial (ts : List Txt) (rest : List (Except Unit Txt)) :
    pagesLoop1 (ts.map Except.ok ++ Except.error () :: rest)
      = (ts, [pdf1ErrE]) := by
  induction ts with
  | nil => rfl
  | cons t ts ih => simp [pagesLoop1, ih]

theorem pagesLoop2_partial (os : List (Option Txt))
    (rest : List (Except Unit (Option Txt))) :
    pagesLoop2 (os.map Except.ok ++ Except.error () :: rest)
      = (os.map (fun o => o.getD []), [pdf2ErrE]) := by
  induction os with
  | nil => rfl
  | cons o os ih => simp [pagesLoop2, ih]

/-- Corrected C2: no parser exception ever propagates (every reader is a
total function into text plus logs), and for the plaintext, docx, odt,
spreadsheet and notebook extractors an exception yields the empty string
plus an error log.  For the PDF readers, however, the claim fails: the
newline-join sits outside the `try` block, so an exception after some
pages were extracted returns the text of those pages — possibly non-empty
partial text (conjuncts 1 and 3); only a failure at open yields "". -/
theorem c2_parse_failure (env : Env) (p : Txt) :
    (extOf p = lit ".pdf" → env.fitz = true →
      ∀ (ts : List Txt) (rest : List (Except Unit Txt)),
      env.readFitz p = .ok (ts.map Except.ok ++ Except.error () :: rest) →
      extract_text_from_file_t env p = (pyJoinList (lit "\n") ts, [pdf1ErrE]))
    ∧ (extOf p = lit ".pdf" → env.fitz = true → env.readFitz p = .error () →
      extract_text_from_file_t env p = ([], [pdf1ErrE]))
    ∧ (extOf p = lit ".pdf" → env.fitz = false → env.pypdf2 = true →
      ∀ (os : List (Option Txt)) (rest : List (Except Unit (Option Txt))),
      env.readPyPdf2 p = .ok (os.map Except.ok ++ Except.error () :: rest) →
      extract_text_from_file_t env p
        = (pyJoinList (lit "\n") (os.map (fun o => o.getD [])), [pdf2ErrE]))
    ∧ (extOf p = lit ".pdf" → env.fitz = false → env.pypdf2 = true →
      env.readPyPdf2 p = .error () →
      extract_text_from_file_t env p = ([], [pdf2ErrE]))
    ∧ (extOf p ∈ plaintextExts → env.readPlain p = .error () →
      extract_text_from_file_t env p = ([], [plainErrE]))
    ∧ (extOf p = lit ".docx" → env.docx = true → env.readDocx p = .error () →
      extract_text_from_file_t env p = ([], [docxErrE]))
    ∧ (extOf p = lit ".odt" → env.odf = true → env.readOdt p = .error () →
      extract_text_from_file_t env p = ([], [odtErrE]))
    ∧ (extOf p ∈ spreadsheetExts → env.openpyxl = true →
      env.readWorkbook p = .error () →
      extract_text_from_file_t env p = ([], [excelErrE]))
    ∧ (extOf p = lit ".ipynb" → env.readJson p = .error () →
      extract_text_from_file_t env p = ([], [ipynbErrE]))
    ∧ (extOf p = lit ".ipynb" → ∀ d, env.readJson p = .ok d →
      ipynbFromJson d = .error () →
      extract_text_from_file_t env p = ([], [ipynbErrE])) := by
  refine ⟨?_, ?_, ?_, ?_, ?_, ?_, ?_, ?_, ?_, ?_⟩
  · intro h hf ts rest hres
    rw [extract_t_of_pdf env p h, hf, hres]
    simp [read_pdf_pymupdf, pagesLoop1_partial ts rest]
  · intro h hf hres
    rw [extract_t_of_pdf env p h, hf, hres]
    rfl
  · intro h hf hp os rest hres
    rw [extract_t_of_pdf env p h, hf, hp, hres]
    simp [read_pdf_pypdf2, pagesLoop2_partial os rest]
  · intro h hf hp hres
    rw [extract_t_of_pdf env p h, hf, hp, hres]
    rfl
  · intro h hres
    rw [extract_t_of_plain env p h, hres]
    rfl
  · intro h hd hres
    rw [extract_t_of_docx env p h, hd, hres]
    rfl
  · intro h ho hres
    rw [extract_t_of_odt env p h, ho, hres]
    rfl
  · intro h ho hres
    rw [extract_t_of_spreadsheet env p h, ho, hres]
    rfl
  · intro h hres
    rw [extract_t_of_ipynb env p h, hres]
    rfl
  · intro h d hres hj
    rw [extract_t_of_ipynb env p h, hres]
    simp [read_ipynb, hj]

/-- Counterexample to C2 as stated: with PyMuPDF available and a PDF whose
first page reads "hello" and whose second page raises, the extractor
returns the non-empty partial text "hello" (the exception is caught and
logged, but the result is not the empty string the claim requires). -/
theorem c2_counterexample :
    extract_text_from_file_t envPdf (lit "doc.pdf")
      = (lit "hello", [pdf1ErrE])
    ∧ lit "hello" ≠ ([] : Txt) := by
  exact ⟨by decide, by decide⟩

/-- Witness for the corrected C2, applying the partial-salvage conjunct to
the concrete one-good-page environment. -/
theorem c2_witness :
    extOf (lit "doc.pdf") = lit ".pdf" ∧ envPdf.fitz = true ∧
    envPdf.readFitz (lit "doc.pdf")
      = .ok ([lit "hello"].map Except.ok ++ Except.error () :: []) ∧
    extract_text_from_file_t envPdf (lit "doc.pdf")
      = (pyJoinList (lit "\n") [lit "hello"], [pdf1ErrE]) :=
  ⟨by decide, rfl, rfl,
    (c2_parse_failure envPdf (lit "doc.pdf")).1 (by decide) rfl
      [lit "hello"] [] rfl⟩

/-! ## Claim C7 -/

theorem foldl_push {α β : Type} (f : α → β) :
    ∀ (l : List α) (acc : List β),
      l.foldl (fun a r => a ++ [f r]) acc = acc ++ l.map f := by
  intro l
  induction l with
  | nil => intro acc; simp
  | cons x xs ih => intro acc; simp [ih]

theorem foldl_append_map {α β : Type} (f : α → β) :
    ∀ (ls : List (List α)) (acc : List β),
      ls.foldl (fun a l => a ++ l.map f) acc = acc ++ (ls.flatten).map f := by
  intro ls
  induction ls with
  | nil => intro acc; simp
  | cons l ls ih => intro acc; simp [ih]

theorem excelChunks_eq (sheets : List (List (List (Option Txt)))) :
    excelChunks sheets = (sheets.flatten).map rowStr := by
  unfold excelChunks
  simp only [foldl_push]
  simpa using foldl_append_map rowStr sheets []

/-- Claim C7: on a successfully read workbook, extraction renders the rows
of all sheets, worksheets in workbook order then rows in sheet order, each
row being its cells tab-joined with null cells rendered "", all rows
newline-joined; in particular the two-sheet one-row example extracts to
"a\t\tb\na\t\tb". -/
theorem c7_spreadsheet_rendering :
    (∀ sheets : List (List (List (Option Txt))),
      read_excel (.ok sheets)
        = (pyJoinList (lit "\n") ((sheets.flatten).map rowStr), []))
    ∧ read_excel (.ok [[[some (lit "a"), none, some (lit "b")]],
        [[some (lit "a"), none, some (lit "b")]]])
      = (lit "a\t\tb\na\t\tb", []) := by
  constructor
  · intro sheets
    simp [read_excel, excelChunks_eq]
  · decide

/-! ## Claim C8 -/

theorem strList_map_str (ls : List Txt) :
    strList (ls.map Json.str) = .ok ls := by
  induction ls with
  | nil => rfl
  | cons s ss ih => simp [strList, ih]

theorem pyJoinList_nil_sep :
    ∀ ls : List Txt, pyJoinList [] ls = ls.flatten := by
  intro ls
  induction ls with
  | nil => rfl
  | cons x xs ih =>
      cases xs with
      | nil => simp [pyJoinList]
      | cons y ys => simp [pyJoinList, ih]

theorem pyStrJoin_arr_strs (ls : List Txt) :
    pyStrJoin [] (Json.arr (ls.map Json.str)) = .ok ls.flatten := by
  simp [pyStrJoin, pyIter, strList_map_str, pyJoinList_nil_sep]

theorem cellTexts_sources (srcs : List (List Txt)) :
    cellTexts (srcs.map (fun ls =>
        Json.obj [(lit "source", Json.arr (ls.map Json.str))]))
      = .ok (srcs.map (fun ls => ls.flatten)) := by
  induction srcs with
  | nil => rfl
  | cons ls rest ih =>
      simp [cellTexts, jsonGet, lookupKey, pyStrJoin_arr_strs, ih]

/-- Claim C8: notebook extraction concatenates the source-line fragments
of each cell in array order with no separator, and joins the cell texts with
newlines; in particular the two-cell example extracts to
"print(1)\nx = 2\ny = 3". -/
theorem c8_notebook_extraction :
    (∀ srcs : List (List Txt),
      read_ipynb (.ok (Json.obj [(lit "cells", Json.arr (srcs.map (fun ls =>
          Json.obj [(lit "source", Json.arr (ls.map Json.str))])))]))
        = (pyJoinList (lit "\n") (srcs.map (fun ls => ls.flatten)), []))
    ∧ read_ipynb (.ok (Json.obj [(lit "cells", Json.arr
        [Json.obj [(lit "source", Json.arr [Json.str (lit "print(1)")])],
         Json.obj [(lit "source",
           Json.arr [Json.str (lit "x = 2\n"), Json.str (lit "y = 3")])]])]))
      = (lit "print(1)\nx = 2\ny = 3", []) := by
  constructor
  · intro srcs
    simp [read_ipynb, ipynbFromJson, jsonGet, lookupKey, pyIter,
      cellTexts_sources]
  · decide

/-! ## Claim C10 -/

/-- Counterexample to C10 as stated: a notebook whose contents parse as
the JSON object with "cells" mapped to null takes the logged-error branch
(iterating `None` raises `TypeError`), although neither a JSON parse
failure nor an I/O failure occurred. -/
theorem c10_counterexample :
    read_ipynb (.ok (Json.obj [(lit "cells", Json.null)]))
      = ([], [ipynbErrE]) := by
  decide

theorem cellTexts_replicate_empty (n : Nat) :
    cellTexts (List.replicate n (Json.obj []))
      = .ok (List.replicate n ([] : Txt)) := by
  induction n with
  | zero => rfl
  | succ m ih => simp [List.replicate_succ, cellTexts, jsonGet, lookupKey,
      pyStrJoin, pyIter, strList, pyJoinList, ih]

theorem pyJoinList_replicate_nil (n : Nat) :
    pyJoinList (lit "\n") (List.replicate n ([] : Txt))
      = List.replicate (n - 1) '\n' := by
  induction n with
  | zero => rfl
  | succ m ih =>
      cases m with
      | zero => rfl
      | succ k =>
          have hsep : lit "\n" = ['\n'] := rfl
          show ([] : Txt) ++ lit "\n"
              ++ pyJoinList (lit "\n") (List.replicate (k + 1) ([] : Txt))
            = List.replicate (k + 1 + 1 - 1) '\n'
          rw [ih]
          simp [hsep, List.replicate_succ]

/-- Corrected C10: on a JSON object, missing keys never log — an object
with no "cells" key yields "" with no diagnostic, and n cells with no
"source" key yield n empty cell texts, i.e. n-1 newlines; but the
logged-error branch is taken not only for JSON parse and I/O failures:
a present key of the wrong type (e.g. "cells": null) also raises inside
the `try` and logs (see the counterexample). -/
theorem c10_missing_keys :
    (∀ kvs, lookupKey (lit "cells") kvs = none →
      read_ipynb (.ok (Json.obj kvs)) = ([], []))
    ∧ (∀ n : Nat,
      read_ipynb (.ok (Json.obj [(lit "cells",
          Json.arr (List.replicate n (Json.obj [])))]))
        = (List.replicate (n - 1) '\n', [])) := by
  constructor
  · intro kvs h
    simp [read_ipynb, ipynbFromJson, jsonGet, h, pyIter, cellTexts,
      pyJoinList]
  · intro n
    simp [read_ipynb, ipynbFromJson, jsonGet, lookupKey, pyIter,
      cellTexts_replicate_empty, pyJoinList_replicate_nil]

/-- Witness for the corrected C10: the missing-"cells" conjunct applied to
the empty JSON object. -/
theorem c10_witness :
    read_ipynb (.ok (Json.obj [])) = ([], []) :=
  c10_missing_keys.1 [] rfl

/-! ## Claim C6 -/

theorem sanitize_eq_nil_of_emptyOrWs {printable space : Char → Bool}
    {nfc : Txt → Txt} {raw : Txt}
    (h : EmptyOrWs space (sanitize_text printable space nfc raw)) :
    sanitize_text printable space nfc raw = [] := by
  cases hs : sanitize_text printable space nfc raw with
  | nil => rfl
  | cons c cs =>
      have hc : space c = true := h c (hs ▸ List.mem_cons_self c cs)
      have hhead : (sanitize_text printable space nfc raw).head? = some c := by
        rw [hs]
        rfl
      have hf : space c = false := pyStrip_head?_false hhead
      rw [hf] at hc
      cases hc

/-- Counterexample to C6 as stated: for a file whose extracted text is the
single character U+0000 (unprintable, but not whitespace), the
extracted-then-sanitized text is empty, yet the files_2_text.py
orchestrator — which checks `text.strip()` on the raw text instead — does
write an output file, containing the raw character. -/
theorem c6_counterexample :
    sanitize_text asciiPrintable asciiSpace id ['\x00'] = []
    ∧ writeContent_t asciiSpace ['\x00'] = some ['\x00'] := by
  decide

/-- Corrected C6: in the sanitizing variants (files_2_zip.py,
raw_text_2_utf8.py) a file whose sanitized text is empty or
whitespace-only produces no output, and no variant ever writes an empty
artifact; in files_2_text.py the skip condition is instead that the RAW
extracted text is whitespace-only, so a raw text sanitizing to empty can
still be written (see the counterexample). -/
theorem c6_no_empty_outputs :
    (∀ (printable space : Char → Bool) (nfc : Txt → Txt) (raw : Txt),
      EmptyOrWs space (sanitize_text printable space nfc raw) →
      writeContent_z printable space nfc raw = none)
    ∧ (∀ (printable space : Char → Bool) (nfc : Txt → Txt) (raw : Txt),
      EmptyOrWs space (sanitize_text printable space nfc raw) →
      writeContent_u printable space nfc raw = none)
    ∧ (∀ (printable space : Char → Bool) (nfc : Txt → Txt) (raw s : Txt),
      writeContent_z printable space nfc raw = some s → s ≠ [])
    ∧ (∀ (printable space : Char → Bool) (nfc : Txt → Txt) (raw s : Txt),
      writeContent_u printable space nfc raw = some s → s ≠ [])
    ∧ (∀ (space : Char → Bool) (raw : Txt),
      (∀ c ∈ raw, space c = true) → writeContent_t space raw = none)
    ∧ (∀ (space : Char → Bool) (raw s : Txt),
      writeContent_t space raw = some s → s ≠ []) := by
  refine ⟨?_, ?_, ?_, ?_, ?_, ?_⟩
  · intro printable space nfc raw h
    simp [writeContent_z, sanitize_eq_nil_of_emptyOrWs h]
  · intro printable space nfc raw h
    simp [writeContent_u, sanitize_eq_nil_of_emptyOrWs h]
  · intro printable space nfc raw s h hnil
    unfold writeContent_z at h
    by_cases hn : sanitize_text printable space nfc raw = []
    · simp [hn] at h
    · rw [if_neg hn] at h
      exact hn (by rw [Option.some.inj h, hnil])
  · intro printable space nfc raw s h hnil
    unfold writeContent_u at h
    by_cases hn : sanitize_text printable space nfc raw = []
    · simp [hn] at h
    · rw [if_neg hn] at h
      exact hn (by rw [Option.some.inj h, hnil])
  · intro space raw h
    unfold writeContent_t
    rw [if_pos (pyStrip_eq_nil_of_all h)]
  · intro space raw s h hnil
    unfold writeContent_t at h
    by_cases hn : pyStrip space raw = []
    · simp [hn] at h
    · rw [if_neg hn] at h
      apply hn
      rw [Option.some.inj h, hnil]
      rfl

/-- Witness for the corrected C6: a whitespace-only extraction is skipped
by both the sanitizing variant and files_2_text.py. -/
theorem c6_witness :
    writeContent_z asciiPrintable asciiSpace id (lit " ") = none
    ∧ writeContent_t asciiSpace (lit " ") = none :=
  ⟨c6_no_empty_outputs.1 asciiPrintable asciiSpace id (lit " ") (by decide),
   c6_no_empty_outputs.2.2.2.2.1 asciiSpace (lit " ") (by decide)⟩

/-! ## Claim C5 -/

theorem rfindAux_not_mem {c : Char} :
    ∀ {l : Txt} (i : Nat) (best : Int), c ∉ l → rfindAux c l i best = best := by
  intro l
  induction l with
  | nil => intro i best _; rfl
  | cons x xs ih =>
      intro i best h
      have hx : ¬x = c := fun hx => h (hx ▸ List.mem_cons_self x xs)
      have hxs : c ∉ xs := fun hm => h (List.mem_cons_of_mem _ hm)
      simp [rfindAux, hx, ih _ _ hxs]

theorem rfindAux_append_last (c : Char) :
    ∀ (pre post : Txt) (i : Nat) (best : Int), c ∉ post →
      rfindAux c (pre ++ c :: post) i best = ((i + pre.length : Nat) : Int) := by
  intro pre
  induction pre with
  | nil =>
      intro post i best h
      simp [rfindAux, rfindAux_not_mem _ _ h]
  | cons x xs ih =>
      intro post i best h
      show rfindAux c (xs ++ c :: post) (i + 1)
          (if x = c then (i : Int) else best) = _
      rw [ih post (i + 1) _ h]
      simp only [List.length_cons]
      congr 1
      omega

theorem pyRfind_append (c : Char) (pre post : Txt) (h : c ∉ post) :
    pyRfind c (pre ++ c :: post) = (pre.length : Int) := by
  unfold pyRfind
  rw [rfindAux_append_last c pre post 0 (-1) h]
  simp

theorem splitext_structured (sub base ext : Txt)
    (hb : ('/' : Char) ∉ base) (he : ('/' : Char) ∉ ext)
    (hd : ('.' : Char) ∉ ext)
    (hbase : (base.any (fun c => c != '.')) = true) :
    (splitext (sub ++ '/' :: (base ++ '.' :: ext))).1 = sub ++ '/' :: base := by
  have hslash : ('/' : Char) ∉ base ++ '.' :: ext := by
    intro hmem
    rcases List.mem_append.mp hmem with h1 | h1
    · exact hb h1
    · rcases List.mem_cons.mp h1 with h2 | h2
      · exact absurd h2 (by decide)
      · exact he h2
  have hsep : pyRfind '/' (sub ++ '/' :: (base ++ '.' :: ext))
      = (sub.length : Int) := pyRfind_append '/' sub (base ++ '.' :: ext) hslash
  have heq : sub ++ '/' :: (base ++ '.' :: ext)
      = (sub ++ '/' :: base) ++ '.' :: ext := by simp
  have hdot : pyRfind '.' (sub ++ '/' :: (base ++ '.' :: ext))
      = (((sub ++ '/' :: base).length : Nat) : Int) := by
    rw [heq]
    exact pyRfind_append '.' (sub ++ '/' :: base) ext hd
  simp only [splitext]
  rw [hsep, hdot]
  rw [if_pos (by simp only [List.length_append, List.length_cons,
    Int.lt_iff_add_one_le, gt_iff_lt]; omega)]
  have h1 : ((sub.length : Int) + 1).toNat = sub.length + 1 := by omega
  have h2 : ((((sub ++ '/' :: base).length : Nat) : Int) - sub.length - 1).toNat
      = base.length := by
    simp only [List.length_append, List.length_cons]
    omega
  rw [h1, h2]
  have hdrop : (sub ++ '/' :: (base ++ '.' :: ext)).drop (sub.length + 1)
      = base ++ '.' :: ext := by
    have hform : sub ++ '/' :: (base ++ '.' :: ext)
        = (sub ++ ['/']) ++ (base ++ '.' :: ext) := by simp
    have hl : (sub ++ ['/']).length = sub.length + 1 := by simp
    rw [hform, ← hl, List.drop_left]
  rw [hdrop, List.take_left, if_pos hbase]
  have h3 : ((((sub ++ '/' :: base).length : Nat) : Int)).toNat
      = (sub ++ '/' :: base).length := by omega
  rw [h3, heq, List.take_left]

theorem pyRelpath_under (root rest : Txt) (h : rest.head? ≠ some '/') :
    pyRelpath (root ++ '/' :: rest) root = rest := by
  unfold pyRelpath
  have hdrop : (root ++ '/' :: rest).drop root.length = '/' :: rest :=
    List.drop_left root ('/' :: rest)
  rw [hdrop, List.dropWhile_cons_of_pos (by simp)]
  cases rest with
  | nil => rfl
  | cons c cs =>
      refine List.dropWhile_cons_of_neg ?_
      rw [List.head?_cons] at h
      simp only [decide_eq_true_eq]
      intro hc
      exact h (by rw [hc])

theorem pyJoin_plain (a b : Txt) (hb : b.head? ≠ some '/') (ha1 : a ≠ [])
    (ha2 : a.getLast? ≠ some '/') : pyJoin a b = a ++ '/' :: b := by
  unfold pyJoin
  rw [if_neg hb, if_neg (not_or.mpr ⟨ha1, ha2⟩)]

/-- Claim C5: the orchestrator maps an input file under the input root to
an output path that strips the root prefix, drops the original extension
whatever its case, appends ".txt", and re-roots under the output
directory, preserving the relative directory structure and the case of
directory names and basename.  The path is decomposed as
root/<sub>/<base>.<ext> with the extension free of dots and slashes and
the basename containing a non-dot character. -/
theorem c5_output_path (input_dir output_dir sub base ext : Txt)
    (hsubne : sub ≠ []) (hsub : sub.head? ≠ some '/')
    (hb : ('/' : Char) ∉ base) (he : ('/' : Char) ∉ ext)
    (hd : ('.' : Char) ∉ ext)
    (hbase : (base.any (fun c => c != '.')) = true)
    (ho1 : output_dir ≠ []) (ho2 : output_dir.getLast? ≠ some '/') :
    conversionTaskPath input_dir output_dir
        (input_dir ++ '/' :: (sub ++ '/' :: (base ++ '.' :: ext)))
      = output_dir ++ '/' :: (sub ++ '/' :: (base ++ lit ".txt")) := by
  have hh : (sub ++ '/' :: (base ++ '.' :: ext)).head? ≠ some '/' := by
    cases sub with
    | nil => exact absurd rfl hsubne
    | cons c cs => simpa using hsub
  simp only [conversionTaskPath]
  rw [pyRelpath_under input_dir (sub ++ '/' :: (base ++ '.' :: ext)) hh]
  rw [splitext_structured sub base ext hb he hd hbase]
  have hh2 : ((sub ++ '/' :: base) ++ lit ".txt").head? ≠ some '/' := by
    cases sub with
    | nil => exact absurd rfl hsubne
    | cons c cs => simpa using hsub
  rw [pyJoin_plain output_dir ((sub ++ '/' :: base) ++ lit ".txt") hh2 ho1 ho2]
  simp

/-- Witness for C5, matching the worked example of the claim: input
root/sub/doc.PDF with output root out yields out/sub/doc.txt. -/
theorem c5_witness :
    conversionTaskPath (lit "root") (lit "out")
        (lit "root" ++ '/' :: (lit "sub" ++ '/' :: (lit "doc" ++ '.' :: lit "PDF")))
      = lit "out" ++ '/' :: (lit "sub" ++ '/' :: (lit "doc" ++ lit ".txt")) :=
  c5_output_path (lit "root") (lit "out") (lit "sub") (lit "doc") (lit "PDF")
    (by decide) (by decide) (by decide) (by decide) (by decide) (by decide)
    (by decide) (by decide)

end Folder2LLM
